import Mathlib

/-!
Verification of the m3u8-reader HLS playlist parser.

The Rust sources (src/error.rs, src/media_playlist.rs, src/multi_variant.rs)
are shallowly embedded below.  The logos lexers produce streams of
`Result<Token, String>`; we model a token stream as
`List (Except String Token)` and embed each parser as a recursive function
over that stream.  Rust `Iterator::nth(k)` consumes `k + 1` items and yields
the item at index `k`, so a call `lexer.nth(k)` is modelled as reading
`ts.get? k` and continuing with `ts.drop (k + 1)`.

Machine integers are modelled as `Nat` with explicit `% 2 ^ w` at the
narrowing casts (`as u8`, `as u32`, `as u16`).  The `f64` / `f32` floats only
flow through the parsers unchanged (no arithmetic is performed on them), so
their payloads are modelled as `Rat` and the `as f32` cast as the identity;
no claim below depends on float rounding.

The source catch-all arms (`_ => ()` and the two `_ => bail!` arms) are
written out constructor by constructor so that each equation of the
embedding corresponds to exactly one behaviour of the source match.
-/

/-- Embeds `enum PlaylistType` from media_playlist.rs. -/
inductive PlaylistType where
  | vod
  | event
deriving DecidableEq

/-- Embeds `enum Method` from media_playlist.rs. -/
inductive EncMethod where
  | aes128
  | sampleAes
  | none
deriving DecidableEq

/-- Embeds `enum Error` from error.rs.  The variants `invalidUtf8`,
`parseIntErr`, `parseFloatErr` mirror the wrapped conversion errors,
`missingValue` mirrors `Error::MissingValue(String)` and
`invalidPlaylistType` mirrors `Error::InvalidPlaylistType`.

Modelled from the spec: the crate root (lib.rs) is not under src/; it holds
the `bail!` macro and the `From<String>` conversion applied by `?` to a logos
lexer error.  Per spec section 4.2 a failed dispatch "fails with an invalid
field error naming the field", which error.rs realises as
`Error::MissingValue`, so `bail!(msg)` is modelled as
`Except.error (.missingValue msg)`; per spec section 4.1 a lexer failure is a
LexError carrying the unrecognized slice, modelled by the extra variant
`lexError`. -/
inductive MError where
  | invalidUtf8
  | parseIntErr
  | parseFloatErr
  | missingValue (s : String)
  | invalidPlaylistType
  | lexError (s : String)
deriving DecidableEq

/-- Embeds `struct Key` from media_playlist.rs. -/
structure KeyInfo where
  method : EncMethod
  uri : String
deriving DecidableEq

/-- Embeds `struct MediaSegment`.  `byte_range : Option<Range<usize>>` is a
pair (start, end) of the Rust `Range`; `duration : f32` is carried as `Rat`
(pass-through only, see the file header). -/
structure MediaSegment where
  duration : Rat
  byte_range : Option (Nat × Nat)
  url : String
deriving DecidableEq

/-- Embeds `struct MediaPlaylist`.  `version : u8` is a `Nat` kept below
`2 ^ 8` by the narrowing in the parser, `media_sequence` and
`target_duration : u32` likewise below `2 ^ 32`. -/
structure MediaPlaylist where
  version : Nat
  media_sequence : Nat
  key : Option KeyInfo
  allow_cache : Bool
  target_duration : Nat
  playlist_type : PlaylistType
  iframes_only : Bool
  segments : List MediaSegment
deriving DecidableEq

/-- Embeds `enum Token` from media_playlist.rs (the media-playlist lexer
token set).  Composite payloads carry the values produced by the logos
callbacks: `byteRangeValue a b` is the `Range<usize>` `a..b` made from the
slice `a@b`. -/
inductive MToken where
  | extM3U
  | endList
  | targetDuration
  | version
  | mediaSequence
  | keyTag
  | allowCache
  | playlistTypeTag
  | iFramesOnly
  | inf
  | byteRangeTag
  | methodKw
  | uriKw
  | equal
  | comma
  | colon
  | float (x : Rat)
  | integer (n : Nat)
  | string (s : String)
  | methodValue (m : EncMethod)
  | allowCacheValue (b : Bool)
  | byteRangeValue (a b : Nat)
  | playlistTypeValue (t : PlaylistType)
  | uriValue (s : String)
deriving DecidableEq

/-- Stream of lexer results, as yielded by `Token::lexer(input)`. -/
abbrev MStream := List (Except String MToken)

/-- Embeds `opt.context(msg)??` from error.rs (`Context for Option`) followed
by the `?` on the inner lexer result: a missing lookahead token becomes
`Error::MissingValue(msg)` and a lexer error token becomes the converted
lexer error (see `MError.lexError`). -/
def lookAt {α : Type} (msg : String) : Option (Except String α) → Except MError α
  | Option.none => .error (.missingValue msg)
  | some (.error s) => .error (.lexError s)
  | some (.ok t) => .ok t

/-- Embeds the `MediaPlaylist` initializer in `parse` (media_playlist.rs
lines 127-136): version 0, media_sequence 0, no key, allow_cache false,
target_duration 0, playlist_type `Vod`, iframes_only false, no segments. -/
def initMedia : MediaPlaylist where
  version := 0
  media_sequence := 0
  key := Option.none
  allow_cache := false
  target_duration := 0
  playlist_type := .vod
  iframes_only := false
  segments := []

/-- Embeds the `while let Some(token) = lexer.next()` dispatch loop of
`parse` in media_playlist.rs, one equation per behaviour of the source
match.  Each `lexer.nth(k)` reads `rest.get? k` and continues on
`rest.drop (k + 1)`.  The `Token::Inf` arm mirrors the source exactly: the
duration lookahead `nth(1)`; then, only when `iframes_only` is already set,
a `nth(3)` byte-range lookahead whose miss is silent but which still
consumes four tokens; then the URL lookahead `nth(url_advance)` with
`url_advance = 0` when a byte range was captured and `1` otherwise.  The
final group of equations spells out the tokens covered by the source
`_ => ()` arm (unknown tokens at document level are ignored). -/
def mediaLoop : MediaPlaylist → MStream → Except MError MediaPlaylist
  | pl, [] => .ok pl
  | _, .error s :: _ => .error (.lexError s)
  | pl, .ok .extM3U :: rest => mediaLoop pl rest
  | pl, .ok .version :: rest =>
    (match lookAt "Invalid version" (rest.get? 1) with
     | .error e => .error e
     | .ok (.integer v) => mediaLoop { pl with version := v % 2 ^ 8 } (rest.drop 2)
     | .ok _ => .error (.missingValue "Invalid version"))
  | pl, .ok .mediaSequence :: rest =>
    (match lookAt "Invalid media sequence" (rest.get? 1) with
     | .error e => .error e
     | .ok (.integer n) => mediaLoop { pl with media_sequence := n % 2 ^ 32 } (rest.drop 2)
     | .ok _ => .error (.missingValue "Invalid media sequence"))
  | pl, .ok .keyTag :: rest =>
    (match lookAt "Invalid method" (rest.get? 3) with
     | .error e => .error e
     | .ok (.methodValue m) =>
       (match lookAt "Invalid URI" ((rest.drop 4).get? 3) with
        | .error e => .error e
        | .ok (.string u) =>
          mediaLoop { pl with key := some { method := m, uri := u } } ((rest.drop 4).drop 4)
        | .ok _ => .error (.missingValue "Invalid key URL"))
     | .ok _ => .error (.missingValue "Invalid method"))
  | pl, .ok .allowCache :: rest =>
    (match lookAt "Invalid allow cache" (rest.get? 1) with
     | .error e => .error e
     | .ok (.allowCacheValue b) => mediaLoop { pl with allow_cache := b } (rest.drop 2)
     | .ok _ => .error (.missingValue "Invalid allow cache"))
  | pl, .ok .targetDuration :: rest =>
    (match lookAt "Invalid target duration" (rest.get? 1) with
     | .error e => .error e
     | .ok (.integer d) => mediaLoop { pl with target_duration := d % 2 ^ 32 } (rest.drop 2)
     | .ok _ => .error (.missingValue "Invalid target duration"))
  | pl, .ok .playlistTypeTag :: rest =>
    (match lookAt "Invalid playlist type" (rest.get? 1) with
     | .error e => .error e
     | .ok (.playlistTypeValue t) => mediaLoop { pl with playlist_type := t } (rest.drop 2)
     | .ok _ => .error (.missingValue "Invalid playlist type"))
  | pl, .ok .iFramesOnly :: rest => mediaLoop { pl with iframes_only := true } rest
  | pl, .ok .inf :: rest =>
    (match lookAt "Invalid duration" (rest.get? 1) with
     | .error e => .error e
     | .ok (.float d) =>
       (match pl.iframes_only with
        | false =>
          (match lookAt "Invalid URL" ((rest.drop 2).get? 1) with
           | .error e => .error e
           | .ok (.uriValue u) =>
             mediaLoop
               { pl with segments :=
                   pl.segments ++ [{ duration := d, byte_range := Option.none, url := u }] }
               ((rest.drop 2).drop 2)
           | .ok _ => .error (.missingValue "Invalid URL"))
        | true =>
          (match (rest.drop 2).get? 3 with
           | some (.ok (.byteRangeValue a b)) =>
             (match lookAt "Invalid URL" (((rest.drop 2).drop 4).get? 0) with
              | .error e => .error e
              | .ok (.uriValue u) =>
                mediaLoop
                  { pl with segments :=
                      pl.segments ++ [{ duration := d, byte_range := some (a, b), url := u }] }
                  (((rest.drop 2).drop 4).drop 1)
              | .ok _ => .error (.missingValue "Invalid URL"))
           | _ =>
             (match lookAt "Invalid URL" (((rest.drop 2).drop 4).get? 1) with
              | .error e => .error e
              | .ok (.uriValue u) =>
                mediaLoop
                  { pl with segments :=
                      pl.segments ++ [{ duration := d, byte_range := Option.none, url := u }] }
                  (((rest.drop 2).drop 4).drop 2)
              | .ok _ => .error (.missingValue "Invalid URL"))))
     | .ok _ => .error (.missingValue "Invalid duration"))
  | pl, .ok .endList :: _ => .ok pl
  | pl, .ok .byteRangeTag :: rest => mediaLoop pl rest
  | pl, .ok .methodKw :: rest => mediaLoop pl rest
  | pl, .ok .uriKw :: rest => mediaLoop pl rest
  | pl, .ok .equal :: rest => mediaLoop pl rest
  | pl, .ok .comma :: rest => mediaLoop pl rest
  | pl, .ok .colon :: rest => mediaLoop pl rest
  | pl, .ok (.float _) :: rest => mediaLoop pl rest
  | pl, .ok (.integer _) :: rest => mediaLoop pl rest
  | pl, .ok (.string _) :: rest => mediaLoop pl rest
  | pl, .ok (.methodValue _) :: rest => mediaLoop pl rest
  | pl, .ok (.allowCacheValue _) :: rest => mediaLoop pl rest
  | pl, .ok (.byteRangeValue _ _) :: rest => mediaLoop pl rest
  | pl, .ok (.playlistTypeValue _) :: rest => mediaLoop pl rest
  | pl, .ok (.uriValue _) :: rest => mediaLoop pl rest
termination_by _ ts => ts.length
decreasing_by
  all_goals simp_all [List.length_drop]
  all_goals omega

/-- Embeds `pub fn parse(input: &str)` of media_playlist.rs, taken from the
point where the lexer output is fixed: the dispatch loop started on the
fresh initializer state. -/
def parseMedia (ts : MStream) : Except MError MediaPlaylist :=
  mediaLoop initMedia ts

example :
    parseMedia [.ok .extM3U, .ok .endList] = .ok initMedia := by
  simp [parseMedia, mediaLoop]

/-- Embeds `enum Token` from multi_variant.rs (the multi-variant lexer token
set).  `resolutionValue w h` carries the pair produced by the logos callback
on slices of the shape width, letter x, height. -/
inductive VToken where
  | extM3U
  | streamInf
  | iFrameStreamInf
  | programId
  | bandwidth
  | resolution
  | frameRate
  | codecs
  | uriKw
  | equal
  | comma
  | colon
  | float (x : Rat)
  | integer (n : Nat)
  | string (s : String)
  | resolutionValue (w h : Nat)
  | uriValue (s : String)
deriving DecidableEq

/-- Stream of multi-variant lexer results. -/
abbrev VStream := List (Except String VToken)

/-- Embeds `struct VariantStream`.  `program_id : Option<u8>` is kept below
`2 ^ 8`, `bandwidth : u32` below `2 ^ 32` and the `u16` resolution
components below `2 ^ 16` by the narrowing in the parser. -/
structure VariantStream where
  program_id : Option Nat
  bandwidth : Nat
  resolution : Nat × Nat
  frame_rate : Option Rat
  codecs : Option String
  uri : String
deriving DecidableEq

/-- Embeds `struct FrameStream` from multi_variant.rs. -/
structure FrameStream where
  bandwidth : Nat
  resolution : Nat × Nat
  codecs : String
  uri : String
deriving DecidableEq

/-- Embeds `struct MultiVariantPlaylist`. -/
structure MultiVariantPlaylist where
  variant_streams : List VariantStream
  frame_streams : List FrameStream
deriving DecidableEq

/-- Embeds the local initializers of `parse_variant_stream` (multi_variant.rs
lines 121-126). -/
def initVariant : VariantStream where
  program_id := Option.none
  bandwidth := 0
  resolution := (0, 0)
  frame_rate := Option.none
  codecs := Option.none
  uri := ""

/-- Embeds the local initializers of `parse_frame_stream` (multi_variant.rs
lines 182-185): note that `codecs` and `uri` start as empty strings. -/
def initFrame : FrameStream where
  bandwidth := 0
  resolution := (0, 0)
  codecs := ""
  uri := ""

/-- Embeds `fn parse_variant_stream`: the sub-parse loop over the shared
lexer.  It returns the built `VariantStream` together with the remaining
token stream (the sub-parse advances the caller's lexer; the `break` on a
bare URI token leaves the rest of the stream to the document loop).  The
last equations spell out the source `_ => bail!("Invalid variant stream")`
arm. -/
def variantLoop : VariantStream → VStream → Except MError (VariantStream × VStream)
  | vs, [] => .ok (vs, [])
  | _, .error s :: _ => .error (.lexError s)
  | vs, .ok .colon :: rest => variantLoop vs rest
  | vs, .ok .equal :: rest => variantLoop vs rest
  | vs, .ok .comma :: rest => variantLoop vs rest
  | vs, .ok .programId :: rest =>
    (match lookAt "program id" (rest.get? 1) with
     | .error e => .error e
     | .ok (.integer v) => variantLoop { vs with program_id := some (v % 2 ^ 8) } (rest.drop 2)
     | .ok _ => .error (.missingValue "Invalid program id"))
  | vs, .ok .bandwidth :: rest =>
    (match lookAt "bandwidth" (rest.get? 1) with
     | .error e => .error e
     | .ok (.integer v) => variantLoop { vs with bandwidth := v % 2 ^ 32 } (rest.drop 2)
     | .ok _ => .error (.missingValue "Invalid bandwidth"))
  | vs, .ok .resolution :: rest =>
    (match lookAt "resolution" (rest.get? 1) with
     | .error e => .error e
     | .ok (.resolutionValue w h) =>
       variantLoop { vs with resolution := (w % 2 ^ 16, h % 2 ^ 16) } (rest.drop 2)
     | .ok _ => .error (.missingValue "Invalid resolution"))
  | vs, .ok .frameRate :: rest =>
    (match lookAt "frame rate" (rest.get? 1) with
     | .error e => .error e
     | .ok (.float r) => variantLoop { vs with frame_rate := some r } (rest.drop 2)
     | .ok _ => .error (.missingValue "Invalid frame rate"))
  | vs, .ok .codecs :: rest =>
    (match lookAt "codecs" (rest.get? 1) with
     | .error e => .error e
     | .ok (.string c) => variantLoop { vs with codecs := some c } (rest.drop 2)
     | .ok _ => .error (.missingValue "Invalid codecs"))
  | vs, .ok (.uriValue u) :: rest => .ok ({ vs with uri := u }, rest)
  | _, .ok .extM3U :: _ => .error (.missingValue "Invalid variant stream")
  | _, .ok .streamInf :: _ => .error (.missingValue "Invalid variant stream")
  | _, .ok .iFrameStreamInf :: _ => .error (.missingValue "Invalid variant stream")
  | _, .ok .uriKw :: _ => .error (.missingValue "Invalid variant stream")
  | _, .ok (.float _) :: _ => .error (.missingValue "Invalid variant stream")
  | _, .ok (.integer _) :: _ => .error (.missingValue "Invalid variant stream")
  | _, .ok (.string _) :: _ => .error (.missingValue "Invalid variant stream")
  | _, .ok (.resolutionValue _ _) :: _ => .error (.missingValue "Invalid variant stream")
termination_by _ ts => ts.length
decreasing_by
  all_goals simp_all [List.length_drop]
  all_goals omega

/-- Embeds `fn parse_frame_stream`: the I-frame sub-parse loop, returning
the built `FrameStream` with the remaining token stream.  A `URI=` attribute
supplies the URI and breaks; stream exhaustion returns the builder with its
defaults (empty `codecs` and `uri`).  The last equations spell out the
source `_ => bail!("Invalid frame stream")` arm. -/
def frameLoop : FrameStream → VStream → Except MError (FrameStream × VStream)
  | fs, [] => .ok (fs, [])
  | _, .error s :: _ => .error (.lexError s)
  | fs, .ok .colon :: rest => frameLoop fs rest
  | fs, .ok .equal :: rest => frameLoop fs rest
  | fs, .ok .comma :: rest => frameLoop fs rest
  | fs, .ok .bandwidth :: rest =>
    (match lookAt "bandwidth" (rest.get? 1) with
     | .error e => .error e
     | .ok (.integer v) => frameLoop { fs with bandwidth := v % 2 ^ 32 } (rest.drop 2)
     | .ok _ => .error (.missingValue "Invalid bandwidth"))
  | fs, .ok .resolution :: rest =>
    (match lookAt "resolution" (rest.get? 1) with
     | .error e => .error e
     | .ok (.resolutionValue w h) =>
       frameLoop { fs with resolution := (w % 2 ^ 16, h % 2 ^ 16) } (rest.drop 2)
     | .ok _ => .error (.missingValue "Invalid resolution"))
  | fs, .ok .codecs :: rest =>
    (match lookAt "codecs" (rest.get? 1) with
     | .error e => .error e
     | .ok (.string c) => frameLoop { fs with codecs := c } (rest.drop 2)
     | .ok _ => .error (.missingValue "Invalid codecs"))
  | fs, .ok .uriKw :: rest =>
    (match lookAt "uri" (rest.get? 1) with
     | .error e => .error e
     | .ok (.string u) => .ok ({ fs with uri := u }, rest.drop 2)
     | .ok _ => .error (.missingValue "Invalid uri"))
  | _, .ok .extM3U :: _ => .error (.missingValue "Invalid frame stream")
  | _, .ok .streamInf :: _ => .error (.missingValue "Invalid frame stream")
  | _, .ok .iFrameStreamInf :: _ => .error (.missingValue "Invalid frame stream")
  | _, .ok .programId :: _ => .error (.missingValue "Invalid frame stream")
  | _, .ok .frameRate :: _ => .error (.missingValue "Invalid frame stream")
  | _, .ok (.float _) :: _ => .error (.missingValue "Invalid frame stream")
  | _, .ok (.integer _) :: _ => .error (.missingValue "Invalid frame stream")
  | _, .ok (.string _) :: _ => .error (.missingValue "Invalid frame stream")
  | _, .ok (.resolutionValue _ _) :: _ => .error (.missingValue "Invalid frame stream")
  | _, .ok (.uriValue _) :: _ => .error (.missingValue "Invalid frame stream")
termination_by _ ts => ts.length
decreasing_by
  all_goals simp_all [List.length_drop]
  all_goals omega

/-- Helper for `variantLoop_rem_le`, by strong induction on the stream
length. -/
theorem variantLoop_rem_le_aux :
    ∀ (n : Nat) (vs : VariantStream) (ts : VStream), ts.length ≤ n →
      ∀ r rem, variantLoop vs ts = .ok (r, rem) → rem.length ≤ ts.length := by
  intro n
  induction n with
  | zero =>
    intro vs ts hlen r rem h
    have hts : ts = [] := List.length_eq_zero.mp (by omega)
    subst hts
    simp only [variantLoop, Except.ok.injEq, Prod.mk.injEq] at h
    simp [← h.2]
  | succ n ih =>
    intro vs ts hlen r rem h
    match ts, hlen with
    | [], _ =>
      simp only [variantLoop, Except.ok.injEq, Prod.mk.injEq] at h
      simp [← h.2]
    | tok :: rest, hlen =>
      have hrest : rest.length ≤ n := by simp at hlen; omega
      rcases tok with s | t
      · simp [variantLoop] at h
      · cases t <;>
          simp only [variantLoop] at h <;>
          (try split at h) <;>
          first
          | (simp at h
             done)
          | (simp only [Except.ok.injEq, Prod.mk.injEq] at h
             try simp [← h.2, List.length_drop]
             try omega
             done)
          | (have hr := ih _ rest hrest _ _ h
             try simp at hr ⊢
             try omega
             done)
          | (have hr := ih _ (rest.drop 2)
               (by simp [List.length_drop]; omega) _ _ h
             try simp [List.length_drop] at hr ⊢
             try omega
             done)

/-- Helper invariant: a variant-stream sub-parse never returns a longer
remaining stream than it was given. -/
theorem variantLoop_rem_le (vs : VariantStream) (ts : VStream) :
    ∀ r rem, variantLoop vs ts = .ok (r, rem) → rem.length ≤ ts.length :=
  variantLoop_rem_le_aux ts.length vs ts le_rfl

/-- Helper for `frameLoop_rem_le`, by strong induction on the stream
length. -/
theorem frameLoop_rem_le_aux :
    ∀ (n : Nat) (fs : FrameStream) (ts : VStream), ts.length ≤ n →
      ∀ r rem, frameLoop fs ts = .ok (r, rem) → rem.length ≤ ts.length := by
  intro n
  induction n with
  | zero =>
    intro fs ts hlen r rem h
    have hts : ts = [] := List.length_eq_zero.mp (by omega)
    subst hts
    simp only [frameLoop, Except.ok.injEq, Prod.mk.injEq] at h
    simp [← h.2]
  | succ n ih =>
    intro fs ts hlen r rem h
    match ts, hlen with
    | [], _ =>
      simp only [frameLoop, Except.ok.injEq, Prod.mk.injEq] at h
      simp [← h.2]
    | tok :: rest, hlen =>
      have hrest : rest.length ≤ n := by simp at hlen; omega
      rcases tok with s | t
      · simp [frameLoop] at h
      · cases t <;>
          simp only [frameLoop] at h <;>
          (try split at h) <;>
          first
          | (simp at h
             done)
          | (simp only [Except.ok.injEq, Prod.mk.injEq] at h
             try simp [← h.2, List.length_drop]
             try omega
             done)
          | (have hr := ih _ rest hrest _ _ h
             try simp at hr ⊢
             try omega
             done)
          | (have hr := ih _ (rest.drop 2)
               (by simp [List.length_drop]; omega) _ _ h
             try simp [List.length_drop] at hr ⊢
             try omega
             done)

/-- Helper invariant: a frame-stream sub-parse never returns a longer
remaining stream than it was given. -/
theorem frameLoop_rem_le (fs : FrameStream) (ts : VStream) :
    ∀ r rem, frameLoop fs ts = .ok (r, rem) → rem.length ≤ ts.length :=
  frameLoop_rem_le_aux ts.length fs ts le_rfl

/-- Embeds the document-level dispatch loop of `pub fn parse` in
multi_variant.rs: `#EXTM3U` and every token other than the two stream tags
are ignored, `#EXT-X-STREAM-INF` and `#EXT-X-I-FRAME-STREAM-INF` open the
two sub-parses on fresh builder states, and a lexer error is terminal. -/
def multiLoop (acc : MultiVariantPlaylist) (ts : VStream) : Except MError MultiVariantPlaylist :=
  match ts with
  | [] => .ok acc
  | .error s :: _ => .error (.lexError s)
  | .ok .streamInf :: rest =>
    (match h : variantLoop initVariant rest with
     | .error e => .error e
     | .ok (vs, rem) =>
       multiLoop { acc with variant_streams := acc.variant_streams ++ [vs] } rem)
  | .ok .iFrameStreamInf :: rest =>
    (match h : frameLoop initFrame rest with
     | .error e => .error e
     | .ok (fs, rem) =>
       multiLoop { acc with frame_streams := acc.frame_streams ++ [fs] } rem)
  | .ok _ :: rest => multiLoop acc rest
termination_by ts.length
decreasing_by
  · have := variantLoop_rem_le initVariant rest _ _ h
    simp
    omega
  · have := frameLoop_rem_le initFrame rest _ _ h
    simp
    omega
  · simp

/-- Embeds `pub fn parse(input: &str)` of multi_variant.rs from the point
where the lexer output is fixed: the document loop started on empty
`variant_streams` and `frame_streams`. -/
def parseMulti (ts : VStream) : Except MError MultiVariantPlaylist :=
  multiLoop { variant_streams := [], frame_streams := [] } ts

example :
    parseMulti [.ok .extM3U] = .ok { variant_streams := [], frame_streams := [] } := by
  simp [parseMulti, multiLoop]

/-- Decides the character class of the digits regex, `0` through `9`. -/
def isDigitChar (c : Char) : Bool :=
  decide ('0' ≤ c) && decide (c ≤ '9')

/-- Numeric value of a digit string, most significant digit first. -/
def digitsToNat (s : List Char) : Nat :=
  s.foldl (fun a c => a * 10 + (c.toNat - 48)) 0

/-- Embeds `lexical::parse::<usize>` on a slice: succeeds exactly on a
non-empty all-digit slice whose value fits in 64 bits (`usize` on the
64-bit targets the crate builds for); larger values or malformed slices
give a parse error. -/
def lexicalParseUsize (s : List Char) : Option Nat :=
  if s ≠ [] ∧ s.all isDigitChar ∧ digitsToNat s < 2 ^ 64 then some (digitsToNat s) else none

/-- Embeds the logos callback of `Token::ByteRangeValue` (media_playlist.rs
lines 70-76): the matched slice is split at the first at-sign, the two parts
are parsed as `usize` and unwrapped into the range `length..offset`.  The
`.unwrap()` aborts the program when a part overflows `usize`; that abort is
modelled as `Option.none`. -/
def byteRangeCallback (s : List Char) : Option (Nat × Nat) :=
  match lexicalParseUsize (s.takeWhile (fun c => c != '@')),
      lexicalParseUsize ((s.dropWhile (fun c => c != '@')).tail) with
  | some len, some off => some (len, off)
  | _, _ => Option.none

example : byteRangeCallback "1316@376".toList = some (1316, 376) := by decide

/-- Helper: dropping elements cannot create membership. -/
theorem not_mem_drop {α : Type} {x : α} {l : List α} (h : x ∉ l) (n : Nat) : x ∉ l.drop n :=
  fun hc => h (List.drop_subset _ _ hc)

/-- Helper for `mediaLoop_playlist_type`, by strong induction on the stream
length: no arm of the dispatch loop other than the playlist-type arm writes
`playlist_type`. -/
theorem mediaLoop_playlist_type_aux :
    ∀ (n : Nat) (pl : MediaPlaylist) (ts : MStream), ts.length ≤ n →
      Except.ok MToken.playlistTypeTag ∉ ts →
      ∀ p, mediaLoop pl ts = .ok p → p.playlist_type = pl.playlist_type := by
  intro n
  induction n with
  | zero =>
    intro pl ts hlen hmem p h
    have hts : ts = [] := List.length_eq_zero.mp (by omega)
    subst hts
    simp only [mediaLoop, Except.ok.injEq] at h
    simp [← h]
  | succ n ih =>
    intro pl ts hlen hmem p h
    match ts, hlen, hmem with
    | [], _, _ =>
      simp only [mediaLoop, Except.ok.injEq] at h
      simp [← h]
    | tok :: rest, hlen, hmem =>
      have hrest : rest.length ≤ n := by simp at hlen; omega
      have hmr : Except.ok MToken.playlistTypeTag ∉ rest :=
        fun hc => hmem (List.mem_cons_of_mem _ hc)
      rcases tok with s | t
      · simp [mediaLoop] at h
      · cases t <;>
          simp only [mediaLoop] at h <;>
          (repeat' split at h) <;>
          first
          | (simp at h
             done)
          | (exact absurd (List.mem_cons_self _ _) hmem)
          | (simp only [Except.ok.injEq] at h
             subst h
             rfl)
          | (have hr := ih _ _ (by first | omega | (simp [List.length_drop]; omega))
               (by first
                 | exact hmr
                 | exact not_mem_drop hmr _
                 | exact not_mem_drop (not_mem_drop hmr _) _
                 | exact not_mem_drop (not_mem_drop (not_mem_drop hmr _) _) _)
               _ h
             simpa using hr)

/-- Helper invariant: if a media-playlist token stream contains no
playlist-type tag, a successful parse leaves `playlist_type` exactly as it
was in the starting state. -/
theorem mediaLoop_playlist_type (pl : MediaPlaylist) (ts : MStream)
    (hmem : Except.ok MToken.playlistTypeTag ∉ ts)
    (p : MediaPlaylist) (h : mediaLoop pl ts = .ok p) :
    p.playlist_type = pl.playlist_type :=
  mediaLoop_playlist_type_aux ts.length pl ts le_rfl hmem p h

/-- Helper for `mediaLoop_gating`, by strong induction on the stream length:
while the i-frames-only flag is unset and no i-frames-only tag occurs, every
segment the dispatch loop appends has `byte_range = none`. -/
theorem mediaLoop_gating_aux :
    ∀ (n : Nat) (pl : MediaPlaylist) (ts : MStream), ts.length ≤ n →
      pl.iframes_only = false →
      Except.ok MToken.iFramesOnly ∉ ts →
      ∀ p seg, mediaLoop pl ts = .ok p → seg ∈ p.segments →
        seg ∈ pl.segments ∨ seg.byte_range = Option.none := by
  intro n
  induction n with
  | zero =>
    intro pl ts hlen hflag hmem p seg h hseg
    have hts : ts = [] := List.length_eq_zero.mp (by omega)
    subst hts
    simp only [mediaLoop, Except.ok.injEq] at h
    subst h
    exact Or.inl hseg
  | succ n ih =>
    intro pl ts hlen hflag hmem p seg h hseg
    match ts, hlen, hmem with
    | [], _, _ =>
      simp only [mediaLoop, Except.ok.injEq] at h
      subst h
      exact Or.inl hseg
    | tok :: rest, hlen, hmem =>
      have hrest : rest.length ≤ n := by simp at hlen; omega
      have hmr : Except.ok MToken.iFramesOnly ∉ rest :=
        fun hc => hmem (List.mem_cons_of_mem _ hc)
      rcases tok with s | t
      · simp [mediaLoop] at h
      · cases t <;>
          simp only [mediaLoop] at h <;>
          (repeat' split at h) <;>
          first
          | (simp at h
             done)
          | (exact absurd (List.mem_cons_self _ _) hmem)
          | (simp only [Except.ok.injEq] at h
             subst h
             exact Or.inl hseg)
          | (simp_all
             done)
          | (have hr := ih _ _ (by first | omega | (simp [List.length_drop]; omega))
               (by simp [hflag])
               (by first
                 | exact hmr
                 | exact not_mem_drop hmr _
                 | exact not_mem_drop (not_mem_drop hmr _) _
                 | exact not_mem_drop (not_mem_drop (not_mem_drop hmr _) _) _)
               _ seg h hseg
             rcases hr with hr | hr
             · first
               | exact Or.inl hr
               | (simp only [List.mem_append, List.mem_singleton] at hr
                  rcases hr with hr | hr
                  · exact Or.inl hr
                  · subst hr
                    exact Or.inr rfl)
             · exact Or.inr hr
             done)

/-- Helper invariant: starting with the i-frames-only flag unset, on a
stream that never sets it, every segment of a successful parse result that
is not already in the starting state carries no byte range. -/
theorem mediaLoop_gating (pl : MediaPlaylist) (ts : MStream)
    (hflag : pl.iframes_only = false)
    (hmem : Except.ok MToken.iFramesOnly ∉ ts)
    (p : MediaPlaylist) (seg : MediaSegment)
    (h : mediaLoop pl ts = .ok p) (hseg : seg ∈ p.segments) :
    seg ∈ pl.segments ∨ seg.byte_range = Option.none :=
  mediaLoop_gating_aux ts.length pl ts le_rfl hflag hmem p seg h hseg

/-- Helper: a digit character is not the at-sign. -/
theorem digit_ne_at {c : Char} (h : isDigitChar c = true) : (c != '@') = true := by
  rcases eq_or_ne c '@' with rfl | hne
  · exact absurd h (by decide)
  · simpa using hne

/-- Helper: `takeWhile` and `dropWhile` split a list exactly at the first
element failing the predicate. -/
theorem takeWhile_append_stop {p : Char → Bool} :
    ∀ (L : List Char) (c : Char) (O : List Char),
      (∀ a ∈ L, p a = true) → p c = false →
      (L ++ c :: O).takeWhile p = L ∧ (L ++ c :: O).dropWhile p = c :: O := by
  intro L
  induction L with
  | nil =>
    intro c O _ hc
    simp [List.takeWhile_cons, List.dropWhile_cons, hc]
  | cons a L ihL =>
    intro c O hall hc
    have ha : p a = true := hall a (List.mem_cons_self _ _)
    have hrec := ihL c O (fun x hx => hall x (List.mem_cons_of_mem _ hx)) hc
    simp [List.takeWhile_cons, List.dropWhile_cons, ha, hrec.1, hrec.2]

/-- Claim C1, counterexample.  The claim asserts that with `iframes_only`
unset, a byte-range tag and composite value between the `#EXTINF` tag and
the segment URL are ignored and the segment is still appended with
`byte_range = none` without failing.  On the corresponding token stream the
code instead fails: the URL lookahead `nth(1)` lands on the byte-range tag
token and the parse aborts with the Invalid URL error. -/
theorem C1_cex :
    parseMedia [.ok .inf, .ok .colon, .ok (.float 1), .ok .comma, .ok .byteRangeTag,
      .ok .colon, .ok (.byteRangeValue 1316 376),
      .ok (.uriValue "https://example.com/segment-1.ts"), .ok .endList]
      = .error (.missingValue "Invalid URL") := by
  simp [parseMedia, mediaLoop, lookAt, initMedia]

/-- Claim C1 (amended): the byte_range field of a parsed segment is `some`
only if the i-frames-only flag was set before that segment's `#EXTINF` was
dispatched — starting from a state with the flag unset, on a stream that
never sets it, every newly appended segment has `byte_range = none`; but
when the flag is unset, a byte-range tag present between `#EXTINF` and the
URL is not skipped: the parse fails with the Invalid URL error instead of
appending the segment. -/
theorem C1_theorem :
    (∀ (pl : MediaPlaylist) (ts : MStream), pl.iframes_only = false →
        Except.ok MToken.iFramesOnly ∉ ts →
        ∀ p seg, mediaLoop pl ts = .ok p → seg ∈ p.segments →
          seg ∈ pl.segments ∨ seg.byte_range = Option.none)
    ∧ (∀ (pl : MediaPlaylist) (q : Rat) (tail : MStream), pl.iframes_only = false →
        mediaLoop pl (.ok .inf :: .ok .colon :: .ok (.float q) :: .ok .comma ::
            .ok .byteRangeTag :: tail)
          = .error (.missingValue "Invalid URL")) := by
  constructor
  · intro pl ts hflag hmem p seg h hseg
    exact mediaLoop_gating pl ts hflag hmem p seg h hseg
  · intro pl q tail hflag
    simp [mediaLoop, lookAt, hflag]

/-- Claim C1, witness: both conjuncts of `C1_theorem` applied at concrete
inputs with every hypothesis discharged. -/
theorem C1_witness :
    (∀ seg : MediaSegment,
        seg ∈ ({ initMedia with
            segments := [{ duration := 1, byte_range := Option.none, url := "https://a" }] } :
            MediaPlaylist).segments →
        seg ∈ initMedia.segments ∨ seg.byte_range = Option.none)
    ∧ mediaLoop initMedia
        [.ok .inf, .ok .colon, .ok (.float 2), .ok .comma, .ok .byteRangeTag]
        = .error (.missingValue "Invalid URL") := by
  constructor
  · intro seg hseg
    exact C1_theorem.1 initMedia
      [.ok .inf, .ok .colon, .ok (.float 1), .ok .comma, .ok (.uriValue "https://a"),
        .ok .endList]
      rfl (by simp) _ seg (by simp [mediaLoop, lookAt, initMedia]) hseg
  · exact C1_theorem.2 initMedia 2 [] rfl

/-- Claim C2, counterexample.  The claim asserts that with `iframes_only`
set and `#EXTINF` followed directly by the segment URI, the byte-range
lookahead misses silently, the segment is appended with `byte_range = none`
and its URL is captured.  On the corresponding token stream the miss is not
silent: `nth(3)` consumes four tokens including the URI, so the URL
lookahead finds nothing and the parse fails with the Invalid URL error. -/
theorem C2_cex :
    parseMedia [.ok .iFramesOnly, .ok .inf, .ok .colon, .ok (.float 6), .ok .comma,
      .ok (.uriValue "https://example.com/segment-1.ts"), .ok .endList]
      = .error (.missingValue "Invalid URL") := by
  simp [parseMedia, mediaLoop, lookAt, initMedia]

/-- Claim C2 (amended): when `iframes_only` is set and the `#EXTINF` tag is
followed (after its duration and comma) directly by the segment URI, the
three-token byte-range lookahead still consumes four tokens — including the
URI — so no segment is appended; with the stream ending in the end-list tag
the subsequent URL lookahead fails and the whole parse returns the Invalid
URL error. -/
theorem C2_theorem :
    ∀ (pl : MediaPlaylist) (q : Rat) (u : String),
      mediaLoop { pl with iframes_only := true }
        [.ok .inf, .ok .colon, .ok (.float q), .ok .comma, .ok (.uriValue u), .ok .endList]
        = .error (.missingValue "Invalid URL") := by
  intro pl q u
  simp [mediaLoop, lookAt]

/-- Claim C3, counterexample.  The claim asserts that a media playlist with
no `#EXT-X-PLAYLIST-TYPE` tag parses to the EVENT-equivalent default; the
initializer in the source sets `PlaylistType::Vod`, so such a parse yields
the VOD value, which is not the EVENT value. -/
theorem C3_cex :
    parseMedia [.ok .extM3U, .ok .endList] = .ok initMedia
    ∧ initMedia.playlist_type = PlaylistType.vod
    ∧ PlaylistType.vod ≠ PlaylistType.event :=
  ⟨by simp [parseMedia, mediaLoop], rfl, by decide⟩

/-- Claim C3 (amended): parsing a media playlist whose token stream contains
no `#EXT-X-PLAYLIST-TYPE` tag never fails on account of the missing tag —
on success `playlist_type` is exactly the initializer value, which is the
VOD default (not EVENT); a concrete tag-free playlist parses successfully
to that default. -/
theorem C3_theorem :
    (∀ (ts : MStream) (pl p : MediaPlaylist),
        Except.ok MToken.playlistTypeTag ∉ ts →
        mediaLoop pl ts = .ok p → p.playlist_type = pl.playlist_type)
    ∧ initMedia.playlist_type = PlaylistType.vod
    ∧ parseMedia [.ok .extM3U, .ok .targetDuration, .ok .colon, .ok (.integer 17), .ok .endList]
        = .ok { initMedia with target_duration := 17 } := by
  refine ⟨?_, rfl, ?_⟩
  · intro ts pl p hmem h
    exact mediaLoop_playlist_type pl ts hmem p h
  · simp [parseMedia, mediaLoop, lookAt, initMedia]

/-- Claim C3, witness: the preservation conjunct of `C3_theorem` applied at
a concrete stream carrying a version tag and no playlist-type tag. -/
theorem C3_witness :
    ({ initMedia with version := 3 } : MediaPlaylist).playlist_type = initMedia.playlist_type :=
  C3_theorem.1 [.ok .version, .ok .colon, .ok (.integer 3)] initMedia
    { initMedia with version := 3 } (by simp) (by simp [mediaLoop, lookAt, initMedia])

/-- Claim C4, counterexample.  The claim asserts that a non-integer token
one past the equals sign after `PROGRAM-ID` leaves `program_id` unset and
the sub-parse continues; the code instead aborts the sub-parse with the
Invalid program id error. -/
theorem C4_cex :
    variantLoop initVariant [.ok .programId, .ok .equal, .ok (.float 1)]
      = .error (.missingValue "Invalid program id") := by
  simp [variantLoop, lookAt]

/-- Claim C4 (amended): when the `PROGRAM-ID` keyword is followed one token
past the equals sign by any token that is not an integer literal, the
variant-stream sub-parse fails with the Invalid program id error — the
attribute is required to be an integer, not best-effort. -/
theorem C4_theorem :
    ∀ (vs : VariantStream) (t : VToken) (tail : VStream),
      (∀ m, t ≠ VToken.integer m) →
      variantLoop vs (.ok .programId :: .ok .equal :: .ok t :: tail)
        = .error (.missingValue "Invalid program id") := by
  intro vs t tail ht
  cases t
  all_goals first
    | exact absurd rfl (ht _)
    | simp [variantLoop, lookAt]

/-- Claim C4, witness: `C4_theorem` applied to a quoted-string value token
with the non-integer hypothesis discharged. -/
theorem C4_witness :
    variantLoop initVariant [.ok .programId, .ok .equal, .ok (.string "x"), .ok .comma]
      = .error (.missingValue "Invalid program id") :=
  C4_theorem initVariant (.string "x") [.ok .comma] (by simp)

/-- Claim C5, counterexample.  The claim asserts that a successful
multi-variant parse never produces a FrameStream with defaulted empty
codecs or uri.  An i-frame block carrying only a bandwidth attribute and
ending with the input parses successfully and yields exactly such a
FrameStream: codecs and uri are the empty-string defaults of the
initializer. -/
theorem C5_cex :
    parseMulti [.ok .iFrameStreamInf, .ok .colon, .ok .bandwidth, .ok .equal, .ok (.integer 5)]
      = .ok { variant_streams := [],
              frame_streams := [{ bandwidth := 5, resolution := (0, 0), codecs := "", uri := "" }] } := by
  simp only [parseMulti]
  rw [multiLoop]
  split
  · rename_i e h
    simp [frameLoop, lookAt, initFrame] at h
  · rename_i fs rem h
    simp [frameLoop, lookAt, initFrame] at h
    obtain ⟨rfl, rfl⟩ := h
    simp [multiLoop]

/-- Claim C5 (amended): the frame-stream sub-parse captures codecs and uri
from explicit `CODECS=` and `URI=` quoted-string attributes when they are
present (`URI=` also ends the sub-parse), but neither attribute is enforced:
a block cut off by the end of the stream returns the builder as-is, with
the empty-string defaults for codecs and uri. -/
theorem C5_theorem :
    (∀ fs : FrameStream, frameLoop fs [] = .ok (fs, []))
    ∧ (∀ (fs : FrameStream) (u : String) (tail : VStream),
        frameLoop fs (.ok .uriKw :: .ok .equal :: .ok (.string u) :: tail)
          = .ok ({ fs with uri := u }, tail))
    ∧ (∀ (fs : FrameStream) (c : String) (tail : VStream),
        frameLoop fs (.ok .codecs :: .ok .equal :: .ok (.string c) :: tail)
          = frameLoop { fs with codecs := c } tail)
    ∧ initFrame.codecs = "" ∧ initFrame.uri = "" := by
  refine ⟨fun fs => by simp [frameLoop], fun fs u tail => by simp [frameLoop, lookAt],
    fun fs c tail => by simp [frameLoop, lookAt], rfl, rfl⟩

/-- Claim C7, counterexample.  The claim asserts that an unrecognized
playlist-type value fails with the InvalidEnumeration / invalid-playlist-type
error kind.  Under the modelled `bail!` the parse of a quoted FOO value
fails with the field-attributed MissingValue error carrying the text
Invalid playlist type, which is a different kind from the dedicated
`MError.invalidPlaylistType` enumeration variant (that variant is never
constructed by the parser). -/
theorem C7_cex :
    parseMedia [.ok .playlistTypeTag, .ok .colon, .ok (.string "FOO"), .ok .endList]
      = .error (.missingValue "Invalid playlist type")
    ∧ MError.missingValue "Invalid playlist type" ≠ MError.invalidPlaylistType :=
  ⟨by simp [parseMedia, mediaLoop, lookAt], by decide⟩

/-- Claim C7 (amended): a `#EXT-X-PLAYLIST-TYPE` value outside the closed
VOD / EVENT set makes the parse fail — never a silent coercion or default —
but with the field-attributed MissingValue error naming the playlist type
when the value lexes as a quoted string, and with the converted lexer error
when the value slice does not lex at all; the dedicated
`Error::InvalidPlaylistType` variant is not the error produced. -/
theorem C7_theorem :
    (∀ (pl : MediaPlaylist) (tail : MStream),
        mediaLoop pl (.ok .playlistTypeTag :: .ok .colon :: .ok (.string "FOO") :: tail)
          = .error (.missingValue "Invalid playlist type"))
    ∧ (∀ (pl : MediaPlaylist) (s : String) (tail : MStream),
        mediaLoop pl (.ok .playlistTypeTag :: .ok .colon :: .error s :: tail)
          = .error (.lexError s))
    ∧ MError.missingValue "Invalid playlist type" ≠ MError.invalidPlaylistType := by
  refine ⟨fun pl tail => by simp [mediaLoop, lookAt],
    fun pl s tail => by simp [mediaLoop, lookAt], by decide⟩

/-- Claim C8, counterexample.  The claim quantifies over every pair of digit
strings; for a first part whose value is 2 to the 64th power the
`lexical::parse::<usize>` inside the byte-range callback fails and the
`.unwrap()` aborts instead of producing the pair (modelled as `none`). -/
theorem C8_cex :
    byteRangeCallback "18446744073709551616@376".toList = Option.none := by
  decide

/-- Claim C8 (amended): for every pair of digit strings L and O whose values
fit in the 64-bit usize, the byte-range callback maps the slice L at-sign O
to the pair whose first component is the integer L (the range start /
length) and whose second component is the integer O (the range end /
offset), in that order — never swapped or re-normalized; values outside the
usize range abort instead. -/
theorem C8_theorem :
    ∀ (L O : List Char), L ≠ [] → O ≠ [] →
      L.all isDigitChar = true → O.all isDigitChar = true →
      digitsToNat L < 2 ^ 64 → digitsToNat O < 2 ^ 64 →
      byteRangeCallback (L ++ '@' :: O) = some (digitsToNat L, digitsToNat O) := by
  intro L O hL hO hdL hdO hbL hbO
  have hall : ∀ a ∈ L, (a != '@') = true :=
    fun a ha => digit_ne_at (List.all_eq_true.mp hdL a ha)
  have hstop : ('@' != '@') = false := by decide
  obtain ⟨htake, hdrop⟩ := takeWhile_append_stop L '@' O hall hstop
  have pL : lexicalParseUsize L = some (digitsToNat L) := by
    norm_num at hbL
    simp [lexicalParseUsize, hL, hdL, hbL]
  have pO : lexicalParseUsize O = some (digitsToNat O) := by
    norm_num at hbO
    simp [lexicalParseUsize, hO, hdO, hbO]
  simp only [byteRangeCallback, htake, hdrop, List.tail_cons, pL, pO]

/-- Claim C8, witness: `C8_theorem` applied to the digit strings 1316 and
376 from the repository test playlist. -/
theorem C8_witness :
    byteRangeCallback ("1316".toList ++ '@' :: "376".toList)
      = some (digitsToNat "1316".toList, digitsToNat "376".toList) :=
  C8_theorem "1316".toList "376".toList (by decide) (by decide) (by decide) (by decide)
    (by decide) (by decide)

/-- Claim C9: the end-list tag terminates the dispatch loop immediately —
from any parser state in which the end-list token is reached, the result of
continuing with an arbitrary suffix equals the result with no suffix at
all, namely the state built so far, so no token after the end-list tag can
change the result or cause an error. -/
theorem C9_theorem :
    ∀ (pl : MediaPlaylist) (tail : MStream),
      mediaLoop pl (.ok .endList :: tail) = mediaLoop pl [.ok .endList]
      ∧ mediaLoop pl (.ok .endList :: tail) = .ok pl := by
  intro pl tail
  constructor <;> simp [mediaLoop]

/-- Claim C10: scalar values are lexed as full-width unsigned integers and
narrowed by truncating casts at the public interface — version modulo
2 to the 8th, media-sequence and target-duration and bandwidth modulo
2 to the 32nd, resolution components modulo 2 to the 16th — never rejected
or saturated. -/
theorem C10_theorem :
    (∀ v : Nat, v < 2 ^ 64 → ∀ (pl : MediaPlaylist) (tail : MStream),
        mediaLoop pl (.ok .version :: .ok .colon :: .ok (.integer v) :: tail)
          = mediaLoop { pl with version := v % 2 ^ 8 } tail)
    ∧ (∀ n : Nat, n < 2 ^ 64 → ∀ (pl : MediaPlaylist) (tail : MStream),
        mediaLoop pl (.ok .mediaSequence :: .ok .colon :: .ok (.integer n) :: tail)
          = mediaLoop { pl with media_sequence := n % 2 ^ 32 } tail)
    ∧ (∀ d : Nat, d < 2 ^ 64 → ∀ (pl : MediaPlaylist) (tail : MStream),
        mediaLoop pl (.ok .targetDuration :: .ok .colon :: .ok (.integer d) :: tail)
          = mediaLoop { pl with target_duration := d % 2 ^ 32 } tail)
    ∧ (∀ b : Nat, b < 2 ^ 64 → ∀ (vs : VariantStream) (tail : VStream),
        variantLoop vs (.ok .bandwidth :: .ok .equal :: .ok (.integer b) :: tail)
          = variantLoop { vs with bandwidth := b % 2 ^ 32 } tail)
    ∧ (∀ w h : Nat, w < 2 ^ 64 → h < 2 ^ 64 → ∀ (vs : VariantStream) (tail : VStream),
        variantLoop vs (.ok .resolution :: .ok .equal :: .ok (.resolutionValue w h) :: tail)
          = variantLoop { vs with resolution := (w % 2 ^ 16, h % 2 ^ 16) } tail) := by
  refine ⟨?_, ?_, ?_, ?_, ?_⟩ <;> intros <;> simp [mediaLoop, variantLoop, lookAt]

/-- Claim C10, witness: the version conjunct of `C10_theorem` at the value
300, which narrows to 44, that is 300 modulo 256. -/
theorem C10_witness :
    mediaLoop initMedia [.ok .version, .ok .colon, .ok (.integer 300)]
      = mediaLoop { initMedia with version := 300 % 2 ^ 8 } []
    ∧ 300 % 2 ^ 8 = 44 :=
  ⟨C10_theorem.1 300 (by decide) initMedia [], by decide⟩
